import Mathlib

/-!
# Shallow embedding of `mcp_gatekeeper.vault_client.VaultClient`

This file embeds the token-tier state machine of
`src/mcp_gatekeeper/vault_client.py` (the `VaultClient` class) in Lean and
proves the specification's claims about it.

Modelling conventions:
* Time is an `Int` (seconds); `datetime.now(timezone.utc)` becomes an explicit
  `now` parameter, held fixed within one operation.
* JSON bodies returned by the backend are modelled by the inductive `JValue`,
  with Python truthiness (`JValue.truthy`) and `dict.get(key, default)`
  (`JValue.getD`) spelled out.
* The HTTP backend is an environment `Env : Request → Response`; each
  operation returns, besides its result and the updated client state, the
  list of HTTP requests it issued, in order.  `httpx`'s `raise_for_status`
  raises exactly when the status is not 2xx (`isSuccess`).
* Python exception sites are mapped to constructors of `VaultError`:
  `PermissionError` in `write_secret` to `insufficientPrivilege`
  (the spec's `InsufficientPrivilegeError`), `raise_for_status` to
  `backendStatus` (`BackendRequestError`), and the three `RuntimeError`
  sites to `credentialLookup` / `mfaNotConfigured` / `mfaDenied`.
* Token slots are `Option String`; Python's `not self.ro_token` is true for
  both `None` and the empty string (`tokenPresent`).
-/

/-- A JSON value, as produced by `resp.json()`. -/
inductive JValue where
  | null : JValue
  | bool : Bool → JValue
  | num : Int → JValue
  | str : String → JValue
  | arr : List JValue → JValue
  | obj : List (String × JValue) → JValue

/-- Python truthiness of a JSON value (`if not x`). -/
def JValue.truthy : JValue → Bool
  | .null => false
  | .bool b => b
  | .num n => n != 0
  | .str s => !s.isEmpty
  | .arr xs => !xs.isEmpty
  | .obj fs => !fs.isEmpty

/-- Python `d.get(key, default)`.  The source only calls `.get` on values it
has just received from `resp.json()` or extracted with a `{}` default, so the
receiver is a dict on every reached path; a non-dict receiver (which would
raise `AttributeError` in Python) is mapped to the default. -/
def JValue.getD (j : JValue) (key : String) (d : JValue) : JValue :=
  match j with
  | .obj fs => match fs.lookup key with
    | some v => v
    | none => d
  | _ => d

/-- `auth.get("lease_duration", 900)` (line 294): the default applies only
when the key is absent.  The backend contract returns this field as a JSON
number; a present non-numeric value would only fail later in Python
(`timedelta`), a path outside every claim, and is mapped to the default. -/
def leaseDurationOf (auth : JValue) : Int :=
  match auth with
  | .obj fs => match fs.lookup "lease_duration" with
    | some (.num n) => n
    | some _ => 900
    | none => 900
  | _ => 900

/-- `auth.get("client_token")` followed by the `if not client_token` check
(lines 293-299): the token is accepted iff it is truthy.  The backend
contract returns the token as a JSON string, so extraction to `String`
handles exactly the string shape; an absent / null / empty value yields
`none` (the `MfaDeniedOrTimedOutError` path). -/
def clientTokenOf (auth : JValue) : Option String :=
  match auth.getD "client_token" JValue.null with
  | .str s => if s.isEmpty then none else some s
  | _ => none

/-- HTTP method of a backend request (`GET` / `POST` / the custom `LIST`). -/
inductive Method where
  | get : Method
  | post : Method
  | list : Method
deriving DecidableEq

/-- The backend endpoints the client talks to, one constructor per URL
template appearing in the source. -/
inductive Endpoint where
  /-- `/v1/{full_api_path}` — `_read_with_token` (line 305). -/
  | vaultGet : String → Endpoint
  /-- `/v1/secret/data/{path}` — `read_secret` / `write_secret`. -/
  | secretData : String → Endpoint
  /-- `/v1/secret/metadata/{path}` — `list_secrets`. -/
  | secretMetadata : String → Endpoint
  /-- `/v1/auth/userpass/login/{username}` — `_userpass_duo_flow` step 1. -/
  | userpassLogin : String → Endpoint
  /-- `/v1/sys/mfa/validate` — `_userpass_duo_flow` step 2. -/
  | mfaValidate : Endpoint
  /-- `/v1/auth/token/revoke-self` — `deescalate`. -/
  | revokeSelf : Endpoint
deriving DecidableEq

/-- The URL string each endpoint stands for, exactly as built in the source. -/
def Endpoint.url : Endpoint → String
  | .vaultGet p => "/v1/" ++ p
  | .secretData p => "/v1/secret/data/" ++ p
  | .secretMetadata p => "/v1/secret/metadata/" ++ p
  | .userpassLogin u => "/v1/auth/userpass/login/" ++ u
  | .mfaValidate => "/v1/sys/mfa/validate"
  | .revokeSelf => "/v1/auth/token/revoke-self"

/-- One HTTP request issued by the client.  `token` is the value of the
`X-Vault-Token` header (`_headers`), `none` when no header is sent (the
userpass login call); `body` is the `json=` payload for POSTs that have one. -/
structure Request where
  method : Method
  endpoint : Endpoint
  token : Option String
  body : Option JValue

/-- A backend response: HTTP status plus parsed JSON body. -/
structure Response where
  status : Nat
  body : JValue

/-- The backend, as the operations observe it: a response for each request. -/
abbrev Env : Type := Request → Response

/-- `httpx.Response.raise_for_status` succeeds exactly on 2xx statuses. -/
def isSuccess (status : Nat) : Bool := 200 ≤ status && status < 300

/-- The Python exception sites of `vault_client.py`, as typed errors. -/
inductive VaultError where
  /-- `PermissionError` in `write_secret` (spec: `InsufficientPrivilegeError`). -/
  | insufficientPrivilege : VaultError
  /-- `raise_for_status` on a non-2xx response (spec: `BackendRequestError`). -/
  | backendStatus : Nat → VaultError
  /-- "Failed to retrieve ... password" (spec: `CredentialLookupError`). -/
  | credentialLookup : String → VaultError
  /-- "did not return an MFA request ID" (spec: `MfaNotConfiguredError`). -/
  | mfaNotConfigured : String → VaultError
  /-- "no token was returned" (spec: `MfaDeniedOrTimedOutError`). -/
  | mfaDenied : String → VaultError
deriving DecidableEq

/-- The mutable state of a `VaultClient` instance: the bootstrap token fixed
at construction and the two credential slots (`ro_token`, `ro_token_expiry`,
`rw_token`, `rw_token_expiry`).  `addr` and the `httpx` client object carry
no brokering state and are absorbed into `Env`. -/
structure ClientState where
  bootstrapToken : String
  roToken : Option String
  roTokenExpiry : Option Int
  rwToken : Option String
  rwTokenExpiry : Option Int
deriving DecidableEq

/-- Python `not self.ro_token`: false for `None` and for the empty string. -/
def tokenPresent : Option String → Bool
  | some t => !t.isEmpty
  | none => false

/-- `_has_valid_ro_token` (lines 46-53): returns the validity verdict and the
state after its lazy eviction side effect. -/
def hasValidRoToken (now : Int) (s : ClientState) : Bool × ClientState :=
  match s.roToken, s.roTokenExpiry with
  | some t, some e =>
      if t.isEmpty then (false, s)
      else if e ≤ now then (false, { s with roToken := none, roTokenExpiry := none })
      else (true, s)
  | _, _ => (false, s)

/-- `_has_valid_rw_token` (lines 55-62). -/
def hasValidRwToken (now : Int) (s : ClientState) : Bool × ClientState :=
  match s.rwToken, s.rwTokenExpiry with
  | some t, some e =>
      if t.isEmpty then (false, s)
      else if e ≤ now then (false, { s with rwToken := none, rwTokenExpiry := none })
      else (true, s)
  | _, _ => (false, s)

/-- The `best_token` property (lines 64-71): RW if valid, else RO if valid,
else `None` — together with the state after the validity checks' lazy
eviction. -/
def best_token (now : Int) (s : ClientState) : Option String × ClientState :=
  let c := hasValidRwToken now s
  if c.1 then (c.2.rwToken, c.2)
  else
    let c' := hasValidRoToken now c.2
    if c'.1 then (c'.2.roToken, c'.2) else (none, c'.2)

/-- Result of one client operation: the value or error, the updated client
state, and the HTTP requests issued (in order). -/
abbrev OpResult (α : Type) : Type := Except VaultError α × ClientState × List Request

/-- `DUO_METHOD_ID` (line 21). -/
def DUO_METHOD_ID : String := "a573c36b-3cb4-4ee1-b947-bc1a81bb674a"

/-- `_read_with_token(full_api_path, token)` (lines 303-311): GET
`/v1/{full_api_path}` with the given token, then
`body.get("data", {}).get("data", {})`.  State is untouched; the single
request issued is reported. -/
def readWithToken (env : Env) (fullApiPath : String) (token : String) :
    Except VaultError JValue × List Request :=
  let req : Request := ⟨.get, .vaultGet fullApiPath, some token, none⟩
  let resp := env req
  if isSuccess resp.status then
    (.ok ((resp.body.getD "data" (.obj [])).getD "data" (.obj [])), [req])
  else
    (.error (.backendStatus resp.status), [req])

/-- `_userpass_duo_flow(username, password)` (lines 259-301): userpass login
(no token header) to obtain an MFA request id, then MFA validation
authorized by the *bootstrap* token; yields `(client_token, lease_duration)`.
The password travels as the JSON value retrieved from the credential path. -/
def userpassDuoFlow (env : Env) (bootstrapToken username : String)
    (password : JValue) : Except VaultError (String × Int) × List Request :=
  let loginReq : Request :=
    ⟨.post, .userpassLogin username, none, some (.obj [("password", password)])⟩
  let loginResp := env loginReq
  if isSuccess loginResp.status then
    let mfaRequestId :=
      ((loginResp.body.getD "auth" (.obj [])).getD "mfa_requirement"
        (.obj [])).getD "mfa_request_id" .null
    if mfaRequestId.truthy then
      let mfaReq : Request :=
        ⟨.post, .mfaValidate, some bootstrapToken,
          some (.obj [("mfa_request_id", mfaRequestId),
                      ("mfa_payload", .obj [(DUO_METHOD_ID, .arr [])])])⟩
      let mfaResp := env mfaReq
      if isSuccess mfaResp.status then
        let auth := mfaResp.body.getD "auth" (.obj [])
        match clientTokenOf auth with
        | some ct => (.ok (ct, leaseDurationOf auth), [loginReq, mfaReq])
        | none => (.error (.mfaDenied username), [loginReq, mfaReq])
      else
        (.error (.backendStatus mfaResp.status), [loginReq, mfaReq])
    else
      (.error (.mfaNotConfigured username), [loginReq])
  else
    (.error (.backendStatus loginResp.status), [loginReq])

/-- `authenticate()` (lines 135-164): read the `claude-ro` password at
`secret/data/claude/ro-login` with the bootstrap token, run the DUO flow as
`claude-ro`, and on success store the RO token with expiry `now + lease`.
The human-readable success message is returned with the timestamp rendered
via `toString` in place of Python's `isoformat`. -/
def authenticate (env : Env) (now : Int) (s : ClientState) : OpResult String :=
  match readWithToken env "secret/data/claude/ro-login" s.bootstrapToken with
  | (.error e, tr) => (.error e, s, tr)
  | (.ok passwordData, tr) =>
    let password := passwordData.getD "password" .null
    if password.truthy then
      match userpassDuoFlow env s.bootstrapToken "claude-ro" password with
      | (.error e, tr') => (.error e, s, tr ++ tr')
      | (.ok (ct, lease), tr') =>
        let s' := { s with roToken := some ct, roTokenExpiry := some (now + lease) }
        (.ok ("Authentication successful. RO token acquired with " ++
              toString lease ++ "s TTL (expires " ++ toString (now + lease) ++ ")."),
         s', tr ++ tr')
    else
      (.error (.credentialLookup "secret/claude/ro-login"), s, tr)

/-- `_ensure_ro_token()` (lines 78-89): return the RO token if valid,
otherwise run `authenticate()` and return the freshly stored RO token.
(`self.ro_token` is known non-`None` on both return paths; `Option.getD ""`
renders the unreachable `None` case.) -/
def ensureRoToken (env : Env) (now : Int) (s : ClientState) : OpResult String :=
  let c := hasValidRoToken now s
  if c.1 then (.ok (c.2.roToken.getD ""), c.2, [])
  else
    match authenticate env now c.2 with
    | (.error e, s', tr) => (.error e, s', tr)
    | (.ok _, s', tr) => (.ok (s'.roToken.getD ""), s', tr)

/-- `read_secret(path)` (lines 93-102): ensure an RO token (auto-renewing via
the DUO flow if needed), GET `/v1/secret/data/{path}` with it, and return
`body.get("data", {}).get("data", {})`. -/
def read_secret (env : Env) (now : Int) (path : String) (s : ClientState) :
    OpResult JValue :=
  match ensureRoToken env now s with
  | (.error e, s', tr) => (.error e, s', tr)
  | (.ok token, s', tr) =>
    let req : Request := ⟨.get, .secretData path, some token, none⟩
    let resp := env req
    if isSuccess resp.status then
      (.ok ((resp.body.getD "data" (.obj [])).getD "data" (.obj [])), s', tr ++ [req])
    else
      (.error (.backendStatus resp.status), s', tr ++ [req])

/-- `write_secret(path, data)` (lines 104-117): requires a currently valid RW
token — otherwise fails with `PermissionError` before any HTTP request — and
POSTs `{"data": data}` to `/v1/secret/data/{path}` with the RW token. -/
def write_secret (env : Env) (now : Int) (path : String) (data : JValue)
    (s : ClientState) : OpResult JValue :=
  let c := hasValidRwToken now s
  if c.1 then
    let req : Request := ⟨.post, .secretData path, c.2.rwToken, some (.obj [("data", data)])⟩
    let resp := env req
    if isSuccess resp.status then (.ok resp.body, c.2, [req])
    else (.error (.backendStatus resp.status), c.2, [req])
  else
    (.error .insufficientPrivilege, c.2, [])

/-- `list_secrets(path)` (lines 119-131): ensure an RO token, LIST
`/v1/secret/metadata/{path}`; a 404 yields the empty list `[]` (before
`raise_for_status` is consulted), otherwise
`body.get("data", {}).get("keys", [])`. -/
def list_secrets (env : Env) (now : Int) (path : String) (s : ClientState) :
    OpResult JValue :=
  match ensureRoToken env now s with
  | (.error e, s', tr) => (.error e, s', tr)
  | (.ok token, s', tr) =>
    let req : Request := ⟨.list, .secretMetadata path, some token, none⟩
    let resp := env req
    if resp.status = 404 then (.ok (.arr []), s', tr ++ [req])
    else if isSuccess resp.status then
      (.ok ((resp.body.getD "data" (.obj [])).getD "keys" (.arr [])), s', tr ++ [req])
    else
      (.error (.backendStatus resp.status), s', tr ++ [req])

/-- `escalate()` (lines 168-200): ensure an RO token (possibly triggering the
RO DUO flow), read the `claude-rw` password at `secret/data/claude/rw-login`
with the *RO* token, run the DUO flow as `claude-rw`, and on success store
the RW token with expiry `now + lease`. -/
def escalate (env : Env) (now : Int) (s : ClientState) : OpResult String :=
  match ensureRoToken env now s with
  | (.error e, s', tr) => (.error e, s', tr)
  | (.ok roToken, s', tr) =>
    match readWithToken env "secret/data/claude/rw-login" roToken with
    | (.error e, tr') => (.error e, s', tr ++ tr')
    | (.ok passwordData, tr') =>
      let password := passwordData.getD "password" .null
      if password.truthy then
        match userpassDuoFlow env s'.bootstrapToken "claude-rw" password with
        | (.error e, tr'') => (.error e, s', tr ++ tr' ++ tr'')
        | (.ok (ct, lease), tr'') =>
          let s'' := { s' with rwToken := some ct, rwTokenExpiry := some (now + lease) }
          (.ok ("Escalation successful. RW token acquired with " ++
                toString lease ++ "s TTL (expires " ++ toString (now + lease) ++ ")."),
           s'', tr ++ tr' ++ tr'')
      else
        (.error (.credentialLookup "secret/claude/rw-login"), s', tr ++ tr')

/-- `deescalate()` (lines 204-228): with no valid RW token, a descriptive
no-op issuing no request; otherwise one best-effort POST to
`/v1/auth/token/revoke-self` whose outcome — any status, any body — is
swallowed, after which the RW slot is cleared unconditionally. -/
def deescalate (env : Env) (now : Int) (s : ClientState) : OpResult String :=
  let c := hasValidRwToken now s
  if c.1 then
    let req : Request := ⟨.post, .revokeSelf, c.2.rwToken, none⟩
    let _resp := env req
    let s' := { c.2 with rwToken := none, rwTokenExpiry := none }
    let c' := hasValidRoToken now s'
    (.ok ("RW token revoked. Dropped to " ++
          (if c'.1 then "ro" else "no_access") ++ "."), c'.2, [req])
  else
    let c' := hasValidRoToken now c.2
    (.ok ("No active RW token to revoke. Current tier: " ++
          (if c'.1 then "ro" else "no_access")), c'.2, [])

/-- The dictionary `token_status()` (lines 232-255) returns, with the
`isoformat` expiry strings (pure formatting) omitted: the tier plus, per
slot, whether it is held and the remaining whole seconds. -/
structure TokenStatus where
  tier : String
  roTokenHeld : Bool
  roRemainingSeconds : Option Int
  rwTokenHeld : Bool
  rwRemainingSeconds : Option Int
deriving DecidableEq

/-- `token_status()` (lines 232-255): checks RO then RW validity (each with
its lazy eviction), reporting tier `"rw"` when RW is valid, else `"ro"` when
RO is valid, else `"no_access"`.  No HTTP request is issued — the definition
does not even consult an `Env`. -/
def token_status (now : Int) (s : ClientState) : TokenStatus × ClientState :=
  let cro := hasValidRoToken now s
  let roRem : Option Int := if cro.1 then cro.2.roTokenExpiry.map (· - now) else none
  let crw := hasValidRwToken now cro.2
  let rwRem : Option Int := if crw.1 then crw.2.rwTokenExpiry.map (· - now) else none
  let tier := if crw.1 then "rw" else if cro.1 then "ro" else "no_access"
  (⟨tier, cro.1, roRem, crw.1, rwRem⟩, crw.2)

/-- Requests that invoke the login flow's userpass step: exactly those to
`/v1/auth/userpass/login/{username}`.  Counting these in a trace counts the
login-flow invocations that reached the backend. -/
def Request.isLoginFlow (r : Request) : Bool :=
  match r.endpoint with
  | .userpassLogin _ => true
  | _ => false

/-- Number of login-flow requests in a trace. -/
def loginFlowCount (tr : List Request) : Nat :=
  (tr.filter Request.isLoginFlow).length

theorem loginFlowCount_append (tr tr' : List Request) :
    loginFlowCount (tr ++ tr') = loginFlowCount tr + loginFlowCount tr' := by
  simp [loginFlowCount, List.filter_append]

/-! ## Helper lemmas about the validity checks -/

theorem hasValidRoToken_valid_iff (now : Int) (s : ClientState) :
    (hasValidRoToken now s).1 = true ↔
      ∃ t e, s.roToken = some t ∧ t.isEmpty = false ∧
        s.roTokenExpiry = some e ∧ now < e := by
  obtain ⟨bt, rot, roe, rwt, rwe⟩ := s
  cases rot with
  | none => simp [hasValidRoToken]
  | some t =>
    cases roe with
    | none => simp [hasValidRoToken]
    | some e =>
      simp only [hasValidRoToken]
      by_cases he : t.isEmpty
      · simp [he]
      · by_cases hle : e ≤ now
        · simp [he, hle]
        · simp [he, hle]
          omega

theorem hasValidRwToken_valid_iff (now : Int) (s : ClientState) :
    (hasValidRwToken now s).1 = true ↔
      ∃ t e, s.rwToken = some t ∧ t.isEmpty = false ∧
        s.rwTokenExpiry = some e ∧ now < e := by
  obtain ⟨bt, rot, roe, rwt, rwe⟩ := s
  cases rwt with
  | none => simp [hasValidRwToken]
  | some t =>
    cases rwe with
    | none => simp [hasValidRwToken]
    | some e =>
      simp only [hasValidRwToken]
      by_cases he : t.isEmpty
      · simp [he]
      · by_cases hle : e ≤ now
        · simp [he, hle]
        · simp [he, hle]
          omega

/-- When the RO token is valid, the validity check leaves the state alone. -/
theorem hasValidRoToken_of_valid (now : Int) (s : ClientState)
    (h : (hasValidRoToken now s).1 = true) : hasValidRoToken now s = (true, s) := by
  obtain ⟨bt, rot, roe, rwt, rwe⟩ := s
  cases rot with
  | none => simp [hasValidRoToken] at h
  | some t =>
    cases roe with
    | none => simp [hasValidRoToken] at h
    | some e =>
      simp only [hasValidRoToken] at h ⊢
      by_cases he : t.isEmpty
      · simp [he] at h
      · by_cases hle : e ≤ now
        · simp [he, hle] at h
        · simp [he, hle]

theorem hasValidRwToken_of_valid (now : Int) (s : ClientState)
    (h : (hasValidRwToken now s).1 = true) : hasValidRwToken now s = (true, s) := by
  obtain ⟨bt, rot, roe, rwt, rwe⟩ := s
  cases rwt with
  | none => simp [hasValidRwToken] at h
  | some t =>
    cases rwe with
    | none => simp [hasValidRwToken] at h
    | some e =>
      simp only [hasValidRwToken] at h ⊢
      by_cases he : t.isEmpty
      · simp [he] at h
      · by_cases hle : e ≤ now
        · simp [he, hle] at h
        · simp [he, hle]

/-- The RO validity check can only touch the RO slot. -/
theorem hasValidRoToken_snd (now : Int) (s : ClientState) :
    (hasValidRoToken now s).2.rwToken = s.rwToken ∧
    (hasValidRoToken now s).2.rwTokenExpiry = s.rwTokenExpiry ∧
    (hasValidRoToken now s).2.bootstrapToken = s.bootstrapToken := by
  obtain ⟨bt, rot, roe, rwt, rwe⟩ := s
  cases rot with
  | none => simp [hasValidRoToken]
  | some t =>
    cases roe with
    | none => simp [hasValidRoToken]
    | some e =>
      simp only [hasValidRoToken]
      by_cases he : t.isEmpty
      · simp [he]
      · by_cases hle : e ≤ now
        · simp [he, hle]
        · simp [he, hle]

/-- The RW validity check can only touch the RW slot. -/
theorem hasValidRwToken_snd (now : Int) (s : ClientState) :
    (hasValidRwToken now s).2.roToken = s.roToken ∧
    (hasValidRwToken now s).2.roTokenExpiry = s.roTokenExpiry ∧
    (hasValidRwToken now s).2.bootstrapToken = s.bootstrapToken := by
  obtain ⟨bt, rot, roe, rwt, rwe⟩ := s
  cases rwt with
  | none => simp [hasValidRwToken]
  | some t =>
    cases rwe with
    | none => simp [hasValidRwToken]
    | some e =>
      simp only [hasValidRwToken]
      by_cases he : t.isEmpty
      · simp [he]
      · by_cases hle : e ≤ now
        · simp [he, hle]
        · simp [he, hle]

/-- Validity is insensitive to the other slot: RW validity only looks at the
RW slot. -/
theorem hasValidRwToken_congr (now : Int) (s s' : ClientState)
    (h1 : s.rwToken = s'.rwToken) (h2 : s.rwTokenExpiry = s'.rwTokenExpiry) :
    (hasValidRwToken now s).1 = (hasValidRwToken now s').1 := by
  unfold hasValidRwToken
  rw [h1, h2]
  rcases s'.rwToken with _ | t <;> rcases s'.rwTokenExpiry with _ | e
  · rfl
  · rfl
  · rfl
  · dsimp only
    split_ifs <;> rfl

/-! ## Claim theorems -/

/-- **C8.** For each tier, the validity check returns `true` iff a credential
is present (a non-empty token string, Python truthiness) together with an
expiry, and the current time is strictly before that expiry; observing a
present but expired credential clears that credential and its expiry (lazy
eviction) and returns `false`; and a validity check never modifies the other
tier's credential. -/
theorem validity_check_spec (now : Int) (s : ClientState) :
    ((hasValidRoToken now s).1 = true ↔
      ∃ t e, s.roToken = some t ∧ t.isEmpty = false ∧
        s.roTokenExpiry = some e ∧ now < e)
    ∧ (∀ t e, s.roToken = some t → t.isEmpty = false → s.roTokenExpiry = some e →
        e ≤ now →
        (hasValidRoToken now s).1 = false ∧
        (hasValidRoToken now s).2.roToken = none ∧
        (hasValidRoToken now s).2.roTokenExpiry = none)
    ∧ ((hasValidRoToken now s).2.rwToken = s.rwToken ∧
       (hasValidRoToken now s).2.rwTokenExpiry = s.rwTokenExpiry)
    ∧ ((hasValidRwToken now s).1 = true ↔
      ∃ t e, s.rwToken = some t ∧ t.isEmpty = false ∧
        s.rwTokenExpiry = some e ∧ now < e)
    ∧ (∀ t e, s.rwToken = some t → t.isEmpty = false → s.rwTokenExpiry = some e →
        e ≤ now →
        (hasValidRwToken now s).1 = false ∧
        (hasValidRwToken now s).2.rwToken = none ∧
        (hasValidRwToken now s).2.rwTokenExpiry = none)
    ∧ ((hasValidRwToken now s).2.roToken = s.roToken ∧
       (hasValidRwToken now s).2.roTokenExpiry = s.roTokenExpiry) := by
  refine ⟨hasValidRoToken_valid_iff now s, ?_,
    ⟨(hasValidRoToken_snd now s).1, (hasValidRoToken_snd now s).2.1⟩,
    hasValidRwToken_valid_iff now s, ?_,
    ⟨(hasValidRwToken_snd now s).1, (hasValidRwToken_snd now s).2.1⟩⟩
  · intro t e ht he hexp hle
    simp [hasValidRoToken, ht, hexp, he, hle]
  · intro t e ht he hexp hle
    simp [hasValidRwToken, ht, hexp, he, hle]

/-- State with an RO token expired at time 5 and an RW token live until 100,
used to witness lazy eviction at time 10. -/
def sExpiredRo : ClientState := ⟨"boot", some "ro", some 5, some "rw", some 100⟩

theorem validity_check_spec_witness :
    (hasValidRoToken 10 sExpiredRo).1 = false ∧
    (hasValidRoToken 10 sExpiredRo).2.roToken = none ∧
    (hasValidRoToken 10 sExpiredRo).2.roTokenExpiry = none :=
  (validity_check_spec 10 sExpiredRo).2.1 "ro" 5 rfl (by decide) rfl (by decide)

/-- **C4.** `token_status()` reports tier `"rw"` iff the RW credential is
valid, else `"ro"` iff the RO credential is valid, else `"no_access"` — a
pure function of the two validities under the RW > RO > NoAccess precedence —
and its only state change is the validity checks' lazy eviction.  It performs
no I/O: `token_status` does not even take an `Env` and issues no request. -/
theorem token_status_spec (now : Int) (s : ClientState) :
    ((token_status now s).1.tier =
       if (hasValidRwToken now s).1 then "rw"
       else if (hasValidRoToken now s).1 then "ro" else "no_access")
    ∧ (token_status now s).1.roTokenHeld = (hasValidRoToken now s).1
    ∧ (token_status now s).1.rwTokenHeld = (hasValidRwToken now s).1
    ∧ (token_status now s).2 = (hasValidRwToken now (hasValidRoToken now s).2).2 := by
  have hsnd := hasValidRoToken_snd now s
  have hc : (hasValidRwToken now (hasValidRoToken now s).2).1 =
      (hasValidRwToken now s).1 :=
    hasValidRwToken_congr now _ s hsnd.1 hsnd.2.1
  refine ⟨?_, rfl, hc, rfl⟩
  have ht : (token_status now s).1.tier =
      if (hasValidRwToken now (hasValidRoToken now s).2).1 then "rw"
      else if (hasValidRoToken now s).1 then "ro" else "no_access" := rfl
  rw [ht, hc]

/-- **C1.** `write_secret` succeeds only if the RW credential was valid
immediately before the call; on an absent or expired RW credential it fails
with `insufficientPrivilege` and issues no backend request at all; in every
case it triggers zero login-flow invocations and never obtains or renews a
credential (the RO slot is untouched and the RW slot at most lazily
evicted). -/
theorem write_secret_requires_valid_rw (env : Env) (now : Int) (path : String)
    (data : JValue) (s : ClientState) :
    (∀ v, (write_secret env now path data s).1 = .ok v →
       (hasValidRwToken now s).1 = true)
    ∧ ((hasValidRwToken now s).1 = false →
        write_secret env now path data s =
          (.error .insufficientPrivilege, (hasValidRwToken now s).2, []))
    ∧ loginFlowCount (write_secret env now path data s).2.2 = 0
    ∧ (write_secret env now path data s).2.1.roToken = s.roToken
    ∧ (write_secret env now path data s).2.1.roTokenExpiry = s.roTokenExpiry
    ∧ (write_secret env now path data s).2.1.rwToken =
        (hasValidRwToken now s).2.rwToken
    ∧ (write_secret env now path data s).2.1.rwTokenExpiry =
        (hasValidRwToken now s).2.rwTokenExpiry := by
  have hsnd := hasValidRwToken_snd now s
  cases hb : (hasValidRwToken now s).1 with
  | false =>
    refine ⟨?_, ?_, ?_, ?_, ?_, ?_, ?_⟩ <;>
      simp [write_secret, hb, loginFlowCount, hsnd.1, hsnd.2.1]
  | true =>
    refine ⟨?_, ?_, ?_, ?_, ?_, ?_, ?_⟩ <;>
      simp only [write_secret, hb, if_true] <;>
      split <;>
      simp [loginFlowCount, Request.isLoginFlow, hsnd.1, hsnd.2.1, hb]

/-- A backend that answers every request with an empty 200. -/
def envAny : Env := fun _ => ⟨200, .obj []⟩

/-- State holding a valid RO token and no RW token. -/
def sNoRw : ClientState := ⟨"boot", some "ro", some 100, none, none⟩

theorem write_secret_requires_valid_rw_witness :
    write_secret envAny 0 "p" (.obj []) sNoRw =
      (.error .insufficientPrivilege, sNoRw, []) :=
  (write_secret_requires_valid_rw envAny 0 "p" (.obj []) sNoRw).2.1 (by decide)

/-- **C6.** `deescalate()` never fails outward.  With no valid RW credential
it is a descriptive no-op naming the current tier and issuing no backend
request; with a valid RW credential it issues exactly one revoke request and
clears the RW slot locally — and its result and final state do not depend on
the backend at all (the revoke call's outcome, success or any failure, is
absorbed). -/
theorem deescalate_spec (env : Env) (now : Int) (s : ClientState) :
    (∃ m, (deescalate env now s).1 = .ok m)
    ∧ (∀ env' : Env, deescalate env now s = deescalate env' now s)
    ∧ ((hasValidRwToken now s).1 = false →
        (deescalate env now s).2.2 = [] ∧
        (deescalate env now s).1 =
          .ok ("No active RW token to revoke. Current tier: " ++
            (if (hasValidRoToken now (hasValidRwToken now s).2).1 then "ro"
             else "no_access")))
    ∧ ((hasValidRwToken now s).1 = true →
        (deescalate env now s).2.1.rwToken = none ∧
        (deescalate env now s).2.1.rwTokenExpiry = none ∧
        (deescalate env now s).2.2 =
          [⟨.post, .revokeSelf, (hasValidRwToken now s).2.rwToken, none⟩]) := by
  refine ⟨?_, fun env' => rfl, ?_, ?_⟩
  · cases hb : (hasValidRwToken now s).1 <;> simp [deescalate, hb]
  · intro hb
    simp [deescalate, hb]
  · intro hb
    have hro := hasValidRoToken_snd now
      { (hasValidRwToken now s).2 with rwToken := none, rwTokenExpiry := none }
    simp [deescalate, hb, hro.1, hro.2.1]

/-- State holding valid RO and RW tokens. -/
def sBothValid : ClientState := ⟨"boot", some "ro", some 100, some "rw", some 100⟩

theorem deescalate_spec_witness :
    (deescalate envAny 0 sBothValid).2.1.rwToken = none ∧
    (deescalate envAny 0 sBothValid).2.1.rwTokenExpiry = none ∧
    (deescalate envAny 0 sBothValid).2.2 =
      [⟨.post, .revokeSelf, some "rw", none⟩] :=
  (deescalate_spec envAny 0 sBothValid).2.2.2 (by decide)

/-! ## Helper lemmas about the login flow and `authenticate` -/

/-- The DUO flow issues the userpass login request, and after it at most the
MFA-validation request (authorized by the bootstrap token). -/
theorem userpassDuoFlow_trace (env : Env) (bt u : String) (pw : JValue) :
    ∃ b, (userpassDuoFlow env bt u pw).2 =
        [⟨.post, .userpassLogin u, none, some (.obj [("password", pw)])⟩] ∨
      (userpassDuoFlow env bt u pw).2 =
        [⟨.post, .userpassLogin u, none, some (.obj [("password", pw)])⟩,
         ⟨.post, .mfaValidate, some bt, some b⟩] := by
  simp only [userpassDuoFlow]
  split
  · split
    · split
      · split
        · exact ⟨_, Or.inr rfl⟩
        · exact ⟨_, Or.inr rfl⟩
      · exact ⟨_, Or.inr rfl⟩
    · exact ⟨.null, Or.inl rfl⟩
  · exact ⟨.null, Or.inl rfl⟩

/-- The DUO flow performs exactly one login-flow (userpass) request. -/
theorem userpassDuoFlow_loginFlowCount (env : Env) (bt u : String) (pw : JValue) :
    loginFlowCount (userpassDuoFlow env bt u pw).2 = 1 := by
  obtain ⟨b, h | h⟩ := userpassDuoFlow_trace env bt u pw <;>
    simp [h, loginFlowCount, Request.isLoginFlow]

/-- Every request the DUO flow makes carries either no token or the bootstrap
token on the MFA-validation endpoint. -/
theorem userpassDuoFlow_tokens (env : Env) (bt u : String) (pw : JValue) :
    ∀ r ∈ (userpassDuoFlow env bt u pw).2,
      r.token = none ∨ (r.token = some bt ∧ r.endpoint = .mfaValidate) := by
  intro r hr
  obtain ⟨b, h | h⟩ := userpassDuoFlow_trace env bt u pw
  · rw [h] at hr
    simp only [List.mem_singleton] at hr
    subst hr
    exact Or.inl rfl
  · rw [h] at hr
    simp only [List.mem_cons, List.mem_singleton, List.not_mem_nil, or_false] at hr
    rcases hr with rfl | rfl
    · exact Or.inl rfl
    · exact Or.inr ⟨rfl, rfl⟩

/-- A successful DUO flow returns a client token minted by the backend: its
value is `clientTokenOf` of some response's `auth` object, and the lease is
that same object's `leaseDurationOf`. -/
theorem userpassDuoFlow_ok (env : Env) (bt u : String) (pw : JValue)
    (ct : String) (lease : Int)
    (h : (userpassDuoFlow env bt u pw).1 = .ok (ct, lease)) :
    ∃ r : Request,
      clientTokenOf ((env r).body.getD "auth" (.obj [])) = some ct ∧
      lease = leaseDurationOf ((env r).body.getD "auth" (.obj [])) := by
  simp only [userpassDuoFlow] at h
  split at h
  · split at h
    · split at h
      · split at h
        · rename_i hct
          simp only [Except.ok.injEq, Prod.mk.injEq] at h
          exact ⟨_, h.1 ▸ hct, h.2.symm⟩
        · exact Except.noConfusion h
      · exact Except.noConfusion h
    · exact Except.noConfusion h
  · exact Except.noConfusion h

/-- `_read_with_token` issues exactly its one GET, with the given token. -/
theorem readWithToken_trace (env : Env) (p tok : String) :
    (readWithToken env p tok).2 = [⟨.get, .vaultGet p, some tok, none⟩] := by
  simp only [readWithToken]
  split <;> rfl

/-- A failed `authenticate` leaves the state exactly as it found it. -/
theorem authenticate_error_state (env : Env) (now : Int) (s : ClientState)
    (e : VaultError) (s' : ClientState) (tr : List Request)
    (h : authenticate env now s = (.error e, s', tr)) : s' = s := by
  simp only [authenticate] at h
  split at h
  · simp only [Prod.mk.injEq] at h
    exact h.2.1.symm
  · split at h
    · split at h
      · simp only [Prod.mk.injEq] at h
        exact h.2.1.symm
      · simp only [Prod.mk.injEq] at h
        exact Except.noConfusion h.1
    · simp only [Prod.mk.injEq] at h
      exact h.2.1.symm

/-- A successful `authenticate` ran the DUO flow as `claude-ro` on some
password, stored exactly the flow's token with expiry `now + lease`, and its
trace is the password read followed by the flow's two requests. -/
theorem authenticate_ok (env : Env) (now : Int) (s : ClientState)
    (m : String) (s' : ClientState) (tr : List Request)
    (h : authenticate env now s = (.ok m, s', tr)) :
    ∃ pw ct lease,
      (userpassDuoFlow env s.bootstrapToken "claude-ro" pw).1 = .ok (ct, lease) ∧
      s' = { s with roToken := some ct, roTokenExpiry := some (now + lease) } ∧
      tr = (readWithToken env "secret/data/claude/ro-login" s.bootstrapToken).2 ++
           (userpassDuoFlow env s.bootstrapToken "claude-ro" pw).2 := by
  simp only [authenticate] at h
  split at h
  · simp only [Prod.mk.injEq] at h
    exact Except.noConfusion h.1
  · split at h
    · split at h
      · simp only [Prod.mk.injEq] at h
        exact Except.noConfusion h.1
      · rename_i pdata ptr hread htruthy hscr ct lease tr2 hflow
        simp only [Prod.mk.injEq] at h
        refine ⟨pdata.getD "password" JValue.null, ct, lease, ?_, h.2.1.symm, ?_⟩
        · rw [hflow]
        · rw [hread, hflow, ← h.2.2]
    · simp only [Prod.mk.injEq] at h
      exact Except.noConfusion h.1

/-- When the RO token is already valid, `_ensure_ro_token` returns it and
performs nothing. -/
theorem ensureRoToken_valid (env : Env) (now : Int) (s : ClientState)
    (h : (hasValidRoToken now s).1 = true) :
    ensureRoToken env now s = (.ok (s.roToken.getD ""), s, []) := by
  have he := hasValidRoToken_of_valid now s h
  simp [ensureRoToken, he]

/-- When the RO token is invalid, `_ensure_ro_token` is `authenticate` on the
lazily-evicted state, returning the freshly stored token on success. -/
theorem ensureRoToken_invalid_auth (env : Env) (now : Int) (s : ClientState)
    (h : (hasValidRoToken now s).1 = false) :
    (∀ e s' tr, authenticate env now (hasValidRoToken now s).2 = (.error e, s', tr) →
        ensureRoToken env now s = (.error e, s', tr))
    ∧ (∀ m s' tr, authenticate env now (hasValidRoToken now s).2 = (.ok m, s', tr) →
        ensureRoToken env now s = (.ok (s'.roToken.getD ""), s', tr)) := by
  constructor
  · intro e s' tr ha
    simp [ensureRoToken, h, ha]
  · intro m s' tr ha
    simp [ensureRoToken, h, ha]

/-- Converse reading of `ensureRoToken_invalid_auth` for errors. -/
theorem ensureRoToken_invalid_error (env : Env) (now : Int) (s : ClientState)
    (h0 : (hasValidRoToken now s).1 = false)
    (e : VaultError) (s' : ClientState) (tr : List Request)
    (hok : ensureRoToken env now s = (.error e, s', tr)) :
    authenticate env now (hasValidRoToken now s).2 = (.error e, s', tr) := by
  rcases hA : authenticate env now (hasValidRoToken now s).2 with ⟨res, s1, tr1⟩
  cases res with
  | error e1 =>
      have hE := (ensureRoToken_invalid_auth env now s h0).1 e1 s1 tr1 hA
      rw [hE] at hok
      exact hok
  | ok m =>
      have hE := (ensureRoToken_invalid_auth env now s h0).2 m s1 tr1 hA
      rw [hE] at hok
      simp only [Prod.mk.injEq] at hok
      exact Except.noConfusion hok.1

/-- Converse reading of `ensureRoToken_invalid_auth` for successes. -/
theorem ensureRoToken_invalid_ok (env : Env) (now : Int) (s : ClientState)
    (h0 : (hasValidRoToken now s).1 = false)
    (tok : String) (s' : ClientState) (tr : List Request)
    (hok : ensureRoToken env now s = (.ok tok, s', tr)) :
    ∃ m, authenticate env now (hasValidRoToken now s).2 = (.ok m, s', tr) ∧
      tok = s'.roToken.getD "" := by
  rcases hA : authenticate env now (hasValidRoToken now s).2 with ⟨res, s1, tr1⟩
  cases res with
  | error e1 =>
      have hE := (ensureRoToken_invalid_auth env now s h0).1 e1 s1 tr1 hA
      rw [hE] at hok
      simp only [Prod.mk.injEq] at hok
      exact Except.noConfusion hok.1
  | ok m =>
      have hE := (ensureRoToken_invalid_auth env now s h0).2 m s1 tr1 hA
      rw [hE] at hok
      simp only [Prod.mk.injEq, Except.ok.injEq] at hok
      exact ⟨m, by rw [hok.2.1, hok.2.2], hok.2.1 ▸ hok.1.symm⟩

/-- Any error from `escalate` leaves the state `_ensure_ro_token` produced
(or found): the RW slot is never written on a failing path. -/
theorem escalate_error_state (env : Env) (now : Int) (s : ClientState)
    (e : VaultError) (s' : ClientState) (tr : List Request)
    (h : escalate env now s = (.error e, s', tr)) :
    (∃ e2 s2 tr2, ensureRoToken env now s = (.error e2, s2, tr2) ∧ s' = s2)
    ∨ (∃ tok s2 tr2, ensureRoToken env now s = (.ok tok, s2, tr2) ∧ s' = s2) := by
  simp only [escalate] at h
  split at h
  · rename_i e2 s2 tr2 heq
    simp only [Prod.mk.injEq] at h
    exact Or.inl ⟨e2, s2, tr2, heq, h.2.1.symm⟩
  · rename_i tok s2 tr2 heq
    split at h
    · simp only [Prod.mk.injEq] at h
      exact Or.inr ⟨tok, s2, tr2, heq, h.2.1.symm⟩
    · split at h
      · split at h
        · simp only [Prod.mk.injEq] at h
          exact Or.inr ⟨tok, s2, tr2, heq, h.2.1.symm⟩
        · simp only [Prod.mk.injEq] at h
          exact Except.noConfusion h.1
      · simp only [Prod.mk.injEq] at h
        exact Or.inr ⟨tok, s2, tr2, heq, h.2.1.symm⟩

/-- **C5.** If `authenticate` fails, the whole client state is exactly as it
was before the call; if `escalate` fails — at password retrieval, identity
login or MFA resolution — the RW slot is never modified, and an RO credential
that was valid immediately before the call is left unchanged. -/
theorem failed_login_preserves_state (env : Env) (now : Int) (s : ClientState) :
    (∀ e s' tr, authenticate env now s = (.error e, s', tr) → s' = s)
    ∧ (∀ e s' tr, escalate env now s = (.error e, s', tr) →
        s'.rwToken = s.rwToken ∧ s'.rwTokenExpiry = s.rwTokenExpiry ∧
        ((hasValidRoToken now s).1 = true →
          s'.roToken = s.roToken ∧ s'.roTokenExpiry = s.roTokenExpiry)) := by
  refine ⟨fun e s' tr h => authenticate_error_state env now s e s' tr h, ?_⟩
  intro e s' tr h
  rcases escalate_error_state env now s e s' tr h with
    ⟨e2, s2, tr2, hens, rfl⟩ | ⟨tok, s2, tr2, hens, rfl⟩
  · cases hv : (hasValidRoToken now s).1 with
    | true =>
        rw [ensureRoToken_valid env now s hv] at hens
        simp only [Prod.mk.injEq] at hens
        exact Except.noConfusion hens.1
    | false =>
        have hauth := ensureRoToken_invalid_error env now s hv e2 s' tr2 hens
        have hs2 := authenticate_error_state env now _ e2 s' tr2 hauth
        have hsnd := hasValidRoToken_snd now s
        rw [hs2]
        exact ⟨hsnd.1, hsnd.2.1, fun hvt => absurd hvt (by simp [hv])⟩
  · cases hv : (hasValidRoToken now s).1 with
    | true =>
        rw [ensureRoToken_valid env now s hv] at hens
        simp only [Prod.mk.injEq] at hens
        obtain ⟨-, h2, -⟩ := hens
        subst h2
        exact ⟨rfl, rfl, fun _ => ⟨rfl, rfl⟩⟩
    | false =>
        obtain ⟨m, hauth, -⟩ := ensureRoToken_invalid_ok env now s hv tok s' tr2 hens
        obtain ⟨pw, ct, lease, -, hs2, -⟩ := authenticate_ok env now _ m s' tr2 hauth
        subst hs2
        have hsnd := hasValidRoToken_snd now s
        exact ⟨hsnd.1, hsnd.2.1, fun hvt => absurd hvt (by simp [hv])⟩

/-- A backend that denies every request with a 403. -/
def envDeny : Env := fun _ => ⟨403, .obj []⟩

theorem failed_login_preserves_state_witness :
    (escalate envDeny 0 sBothValid).1 = .error (.backendStatus 403) ∧
    (escalate envDeny 0 sBothValid).2.1.rwToken = sBothValid.rwToken ∧
    (escalate envDeny 0 sBothValid).2.1.roToken = sBothValid.roToken := by
  have h := (failed_login_preserves_state envDeny 0 sBothValid).2
    (.backendStatus 403) (escalate envDeny 0 sBothValid).2.1
    (escalate envDeny 0 sBothValid).2.2 (by rfl)
  exact ⟨rfl, h.1, (h.2.2 (by decide)).1⟩

/-- A read against a valid RO credential: no login request, state unchanged,
and the single GET carries the held RO token. -/
theorem read_secret_valid_facts (env : Env) (now : Int) (path : String)
    (s : ClientState) (hv : (hasValidRoToken now s).1 = true) :
    loginFlowCount (read_secret env now path s).2.2 = 0 ∧
    (read_secret env now path s).2.1 = s ∧
    (read_secret env now path s).2.2 =
      [⟨.get, .secretData path, some (s.roToken.getD ""), none⟩] := by
  have hens := ensureRoToken_valid env now s hv
  refine ⟨?_, ?_, ?_⟩ <;>
    · simp only [read_secret, hens]
      split <;> simp [loginFlowCount, Request.isLoginFlow]

/-- A list against a valid RO credential: no login request, state unchanged,
and the single LIST carries the held RO token. -/
theorem list_secrets_valid_facts (env : Env) (now : Int) (path : String)
    (s : ClientState) (hv : (hasValidRoToken now s).1 = true) :
    loginFlowCount (list_secrets env now path s).2.2 = 0 ∧
    (list_secrets env now path s).2.1 = s ∧
    (list_secrets env now path s).2.2 =
      [⟨.list, .secretMetadata path, some (s.roToken.getD ""), none⟩] := by
  have hens := ensureRoToken_valid env now s hv
  refine ⟨?_, ?_, ?_⟩ <;>
    · simp only [list_secrets, hens]
      split <;> [skip; split] <;> simp [loginFlowCount, Request.isLoginFlow]

/-- A successful read that found the RO credential invalid: exactly one login
request, the RW slot untouched, and the RO slot freshly holding the flow's
token with the backend-reported lease. -/
theorem read_secret_invalid_ok (env : Env) (now : Int) (path : String)
    (s : ClientState) (hv : (hasValidRoToken now s).1 = false)
    (v : JValue) (hok : (read_secret env now path s).1 = .ok v) :
    loginFlowCount (read_secret env now path s).2.2 = 1 ∧
    (read_secret env now path s).2.1.rwToken = s.rwToken ∧
    (read_secret env now path s).2.1.rwTokenExpiry = s.rwTokenExpiry ∧
    ∃ pw ct lease,
      (userpassDuoFlow env s.bootstrapToken "claude-ro" pw).1 = .ok (ct, lease) ∧
      (read_secret env now path s).2.1.roToken = some ct ∧
      (read_secret env now path s).2.1.roTokenExpiry = some (now + lease) := by
  rcases hE : ensureRoToken env now s with ⟨res, s1, tr1⟩
  cases res with
  | error e =>
      rw [show read_secret env now path s = (.error e, s1, tr1) by
        simp [read_secret, hE]] at hok
      exact Except.noConfusion hok
  | ok tok =>
      obtain ⟨m, hauth, htok⟩ := ensureRoToken_invalid_ok env now s hv tok s1 tr1 hE
      obtain ⟨pw, ct, lease, hflow, hs1, htr⟩ := authenticate_ok env now _ m s1 tr1 hauth
      have hbs : (hasValidRoToken now s).2.bootstrapToken = s.bootstrapToken :=
        (hasValidRoToken_snd now s).2.2
      rw [hbs] at hflow htr
      have hcount : loginFlowCount tr1 = 1 := by
        rw [htr, loginFlowCount_append, userpassDuoFlow_loginFlowCount,
          readWithToken_trace]
        rfl
      have hsnd := hasValidRoToken_snd now s
      have hstate : (read_secret env now path s).2.1 = s1 := by
        simp only [read_secret, hE]
        split <;> rfl
      have htrace : (read_secret env now path s).2.2 =
          tr1 ++ [⟨.get, .secretData path, some tok, none⟩] := by
        simp only [read_secret, hE]
        split <;> rfl
      refine ⟨?_, ?_, ?_, pw, ct, lease, hflow, ?_, ?_⟩
      · rw [htrace, loginFlowCount_append, hcount]
        simp [loginFlowCount, Request.isLoginFlow]
      · rw [hstate, hs1]
        exact hsnd.1
      · rw [hstate, hs1]
        exact hsnd.2.1
      · rw [hstate, hs1]
      · rw [hstate, hs1]

/-- A successful list that found the RO credential invalid: exactly one login
request, the RW slot untouched, and the RO slot freshly holding the flow's
token with the backend-reported lease. -/
theorem list_secrets_invalid_ok (env : Env) (now : Int) (path : String)
    (s : ClientState) (hv : (hasValidRoToken now s).1 = false)
    (v : JValue) (hok : (list_secrets env now path s).1 = .ok v) :
    loginFlowCount (list_secrets env now path s).2.2 = 1 ∧
    (list_secrets env now path s).2.1.rwToken = s.rwToken ∧
    (list_secrets env now path s).2.1.rwTokenExpiry = s.rwTokenExpiry ∧
    ∃ pw ct lease,
      (userpassDuoFlow env s.bootstrapToken "claude-ro" pw).1 = .ok (ct, lease) ∧
      (list_secrets env now path s).2.1.roToken = some ct ∧
      (list_secrets env now path s).2.1.roTokenExpiry = some (now + lease) := by
  rcases hE : ensureRoToken env now s with ⟨res, s1, tr1⟩
  cases res with
  | error e =>
      rw [show list_secrets env now path s = (.error e, s1, tr1) by
        simp [list_secrets, hE]] at hok
      exact Except.noConfusion hok
  | ok tok =>
      obtain ⟨m, hauth, htok⟩ := ensureRoToken_invalid_ok env now s hv tok s1 tr1 hE
      obtain ⟨pw, ct, lease, hflow, hs1, htr⟩ := authenticate_ok env now _ m s1 tr1 hauth
      have hbs : (hasValidRoToken now s).2.bootstrapToken = s.bootstrapToken :=
        (hasValidRoToken_snd now s).2.2
      rw [hbs] at hflow htr
      have hcount : loginFlowCount tr1 = 1 := by
        rw [htr, loginFlowCount_append, userpassDuoFlow_loginFlowCount,
          readWithToken_trace]
        rfl
      have hsnd := hasValidRoToken_snd now s
      have hstate : (list_secrets env now path s).2.1 = s1 := by
        simp only [list_secrets, hE]
        split <;> [rfl; (split <;> rfl)]
      have htrace : (list_secrets env now path s).2.2 =
          tr1 ++ [⟨.list, .secretMetadata path, some tok, none⟩] := by
        simp only [list_secrets, hE]
        split <;> [rfl; (split <;> rfl)]
      refine ⟨?_, ?_, ?_, pw, ct, lease, hflow, ?_, ?_⟩
      · rw [htrace, loginFlowCount_append, hcount]
        simp [loginFlowCount, Request.isLoginFlow]
      · rw [hstate, hs1]
        exact hsnd.1
      · rw [hstate, hs1]
        exact hsnd.2.1
      · rw [hstate, hs1]
      · rw [hstate, hs1]

/-- **C7.** For every read or list call: with a valid RO credential the call
issues zero login-flow requests, leaves the state unchanged and sends the
held RO credential; with an absent or expired RO credential, a successful
call issues exactly one login-flow request, which sets only the RO credential
(the RW slot is untouched) to the flow's token with the backend-reported
lease duration.  Consequently a second read finding the first read's RO
credential still valid adds zero further login requests. -/
theorem read_list_renewal_spec (env : Env) (now : Int) (path : String)
    (s : ClientState) :
    ((hasValidRoToken now s).1 = true →
      (loginFlowCount (read_secret env now path s).2.2 = 0 ∧
        (read_secret env now path s).2.1 = s ∧
        (read_secret env now path s).2.2 =
          [⟨.get, .secretData path, some (s.roToken.getD ""), none⟩]) ∧
      (loginFlowCount (list_secrets env now path s).2.2 = 0 ∧
        (list_secrets env now path s).2.1 = s ∧
        (list_secrets env now path s).2.2 =
          [⟨.list, .secretMetadata path, some (s.roToken.getD ""), none⟩]))
    ∧ ((hasValidRoToken now s).1 = false →
        (∀ v, (read_secret env now path s).1 = .ok v →
          loginFlowCount (read_secret env now path s).2.2 = 1 ∧
          (read_secret env now path s).2.1.rwToken = s.rwToken ∧
          (read_secret env now path s).2.1.rwTokenExpiry = s.rwTokenExpiry ∧
          ∃ pw ct lease,
            (userpassDuoFlow env s.bootstrapToken "claude-ro" pw).1 =
              .ok (ct, lease) ∧
            (read_secret env now path s).2.1.roToken = some ct ∧
            (read_secret env now path s).2.1.roTokenExpiry = some (now + lease)) ∧
        (∀ v, (list_secrets env now path s).1 = .ok v →
          loginFlowCount (list_secrets env now path s).2.2 = 1 ∧
          (list_secrets env now path s).2.1.rwToken = s.rwToken ∧
          (list_secrets env now path s).2.1.rwTokenExpiry = s.rwTokenExpiry ∧
          ∃ pw ct lease,
            (userpassDuoFlow env s.bootstrapToken "claude-ro" pw).1 =
              .ok (ct, lease) ∧
            (list_secrets env now path s).2.1.roToken = some ct ∧
            (list_secrets env now path s).2.1.roTokenExpiry = some (now + lease)))
    ∧ (∀ env2 now2 path2,
        (hasValidRoToken now2 (read_secret env now path s).2.1).1 = true →
        loginFlowCount ((read_secret env now path s).2.2 ++
            (read_secret env2 now2 path2 (read_secret env now path s).2.1).2.2) =
          loginFlowCount (read_secret env now path s).2.2) := by
  refine ⟨?_, ?_, ?_⟩
  · intro hv
    exact ⟨read_secret_valid_facts env now path s hv,
      list_secrets_valid_facts env now path s hv⟩
  · intro hv
    exact ⟨fun v hok => read_secret_invalid_ok env now path s hv v hok,
      fun v hok => list_secrets_invalid_ok env now path s hv v hok⟩
  · intro env2 now2 path2 hv2
    rw [loginFlowCount_append,
      (read_secret_valid_facts env2 now2 path2 _ hv2).1, Nat.add_zero]

/-- A cooperative backend: passwords at the credential paths, an MFA request
id at login, a fresh token with a 3600s lease at MFA validation, and data
payloads for the gateway operations. -/
def envHappy : Env := fun r =>
  match r.endpoint with
  | .vaultGet _ =>
      ⟨200, .obj [("data", .obj [("data", .obj [("password", .str "pw")])])]⟩
  | .secretData _ =>
      ⟨200, .obj [("data", .obj [("data", .obj [("k", .str "v")])])]⟩
  | .secretMetadata _ =>
      ⟨200, .obj [("data", .obj [("keys", .arr [.str "a"])])]⟩
  | .userpassLogin _ =>
      ⟨200, .obj [("auth", .obj [("mfa_requirement",
        .obj [("mfa_request_id", .str "req-1")])])]⟩
  | .mfaValidate =>
      ⟨200, .obj [("auth", .obj [("client_token", .str "tok1"),
        ("lease_duration", .num 3600)])]⟩
  | .revokeSelf => ⟨200, .obj []⟩

/-- A freshly constructed client: bootstrap token only, no credentials. -/
def sFresh : ClientState := ⟨"boot", none, none, none, none⟩

theorem read_list_renewal_spec_witness :
    (loginFlowCount (read_secret envHappy 0 "p" sFresh).2.2 = 1 ∧
      (read_secret envHappy 0 "p" sFresh).2.1.rwToken = none) ∧
    loginFlowCount (read_secret envHappy 0 "p" sBothValid).2.2 = 0 := by
  have h := ((read_list_renewal_spec envHappy 0 "p" sFresh).2.1 (by decide)).1
    (.obj [("k", .str "v")]) rfl
  have h2 := ((read_list_renewal_spec envHappy 0 "p" sBothValid).1 (by decide)).1
  exact ⟨⟨h.1, h.2.1⟩, h2.1⟩

/-- **C9.** Once the RO ensure step has yielded a token, a backend 404 is
treated asymmetrically by the two query operations: `list_secrets` returns
the empty key list without error, while `read_secret` surfaces the same 404
as a backend error. -/
theorem notFound_asymmetry (env : Env) (now : Int) (path : String)
    (s : ClientState) (tok : String) (s1 : ClientState) (tr1 : List Request)
    (hE : ensureRoToken env now s = (.ok tok, s1, tr1)) :
    ((env ⟨.get, .secretData path, some tok, none⟩).status = 404 →
      (read_secret env now path s).1 = .error (.backendStatus 404))
    ∧ ((env ⟨.list, .secretMetadata path, some tok, none⟩).status = 404 →
      (list_secrets env now path s).1 = .ok (.arr [])) := by
  constructor
  · intro h404
    simp [read_secret, hE, h404, isSuccess]
  · intro h404
    simp [list_secrets, hE, h404]

/-- A backend answering 404 at the secret data and metadata endpoints. -/
def envNotFound : Env := fun r =>
  match r.endpoint with
  | .secretData _ => ⟨404, .obj []⟩
  | .secretMetadata _ => ⟨404, .obj []⟩
  | _ => ⟨200, .obj []⟩

theorem notFound_asymmetry_witness :
    (read_secret envNotFound 0 "p" sBothValid).1 = .error (.backendStatus 404) ∧
    (list_secrets envNotFound 0 "p" sBothValid).1 = .ok (.arr []) := by
  have h := notFound_asymmetry envNotFound 0 "p" sBothValid "ro" sBothValid [] rfl
  exact ⟨h.1 rfl, h.2 rfl⟩

/-- `getD` on a literal object is a lookup. -/
theorem JValue.getD_obj (fs : List (String × JValue)) (k : String) (d : JValue) :
    (JValue.obj fs).getD k d = match fs.lookup k with | some v => v | none => d := rfl

/-- **C10.** If the MFA-validation response carries a client token but omits
the `lease_duration` field, the login flow does not fail: it returns the
credential with the default lease of 900 seconds, and `authenticate` then
stores the RO credential with expiry `now + 900` (the RW case composes
through `escalate` with the same flow).  The hypotheses spell out the
backend interaction: a successful userpass login yielding a truthy MFA
request id, and a successful MFA validation whose `auth` object contains a
non-empty `client_token` string and no `lease_duration` key. -/
theorem default_lease_spec (env : Env) (bt u : String) (pw : JValue)
    (mfaId : JValue) (ct : String) (fs : List (String × JValue))
    (hlog : isSuccess (env ⟨.post, .userpassLogin u, none,
        some (.obj [("password", pw)])⟩).status = true)
    (hid : (((env ⟨.post, .userpassLogin u, none,
        some (.obj [("password", pw)])⟩).body.getD "auth" (.obj [])).getD
          "mfa_requirement" (.obj [])).getD "mfa_request_id" .null = mfaId)
    (hidT : mfaId.truthy = true)
    (hval : isSuccess (env ⟨.post, .mfaValidate, some bt,
        some (.obj [("mfa_request_id", mfaId),
          ("mfa_payload", .obj [(DUO_METHOD_ID, .arr [])])])⟩).status = true)
    (hauth : (env ⟨.post, .mfaValidate, some bt,
        some (.obj [("mfa_request_id", mfaId),
          ("mfa_payload", .obj [(DUO_METHOD_ID, .arr [])])])⟩).body.getD
        "auth" (.obj []) = .obj fs)
    (hct : fs.lookup "client_token" = some (.str ct))
    (hctne : ct.isEmpty = false)
    (hnolease : fs.lookup "lease_duration" = none)
    (hr1 : isSuccess (env ⟨.get, .vaultGet "secret/data/claude/ro-login",
        some bt, none⟩).status = true)
    (hr2 : (((env ⟨.get, .vaultGet "secret/data/claude/ro-login",
        some bt, none⟩).body.getD "data" (.obj [])).getD "data"
          (.obj [])).getD "password" .null = pw)
    (hr3 : pw.truthy = true) :
    (userpassDuoFlow env bt u pw).1 = .ok (ct, 900)
    ∧ (u = "claude-ro" → ∀ now s, s.bootstrapToken = bt →
        (authenticate env now s).2.1.roTokenExpiry = some (now + 900) ∧
        (authenticate env now s).2.1.roToken = some ct ∧
        ∃ m, (authenticate env now s).1 = .ok m) := by
  have hflow1 : (userpassDuoFlow env bt u pw).1 = .ok (ct, 900) := by
    simp [userpassDuoFlow, hlog, hid, hidT, hval, hauth, clientTokenOf,
      leaseDurationOf, JValue.getD_obj, hct, hctne, hnolease]
  refine ⟨hflow1, ?_⟩
  intro hu now s hbt
  subst hu
  subst hbt
  have hrw : readWithToken env "secret/data/claude/ro-login" s.bootstrapToken =
      (.ok (((env ⟨.get, .vaultGet "secret/data/claude/ro-login",
          some s.bootstrapToken, none⟩).body.getD "data" (.obj [])).getD
            "data" (.obj [])),
       [⟨.get, .vaultGet "secret/data/claude/ro-login",
          some s.bootstrapToken, none⟩]) := by
    simp [readWithToken, hr1]
  rcases hfl : userpassDuoFlow env s.bootstrapToken "claude-ro" pw with ⟨res, trf⟩
  rw [hfl] at hflow1
  have hres : res = .ok (ct, 900) := hflow1
  subst hres
  refine ⟨?_, ?_, ?_⟩ <;> simp [authenticate, hrw, hr2, hr3, hfl]

/-- Backend identical to `envHappy` except that the MFA-validation response
omits `lease_duration`. -/
def envNoLease : Env := fun r =>
  match r.endpoint with
  | .vaultGet _ =>
      ⟨200, .obj [("data", .obj [("data", .obj [("password", .str "pw")])])]⟩
  | .userpassLogin _ =>
      ⟨200, .obj [("auth", .obj [("mfa_requirement",
        .obj [("mfa_request_id", .str "req-1")])])]⟩
  | .mfaValidate =>
      ⟨200, .obj [("auth", .obj [("client_token", .str "tok1")])]⟩
  | _ => ⟨200, .obj []⟩

theorem default_lease_spec_witness :
    (userpassDuoFlow envNoLease "boot" "claude-ro" (.str "pw")).1 =
      .ok ("tok1", 900) ∧
    (authenticate envNoLease 0 sFresh).2.1.roTokenExpiry = some 900 ∧
    (authenticate envNoLease 0 sFresh).2.1.roToken = some "tok1" := by
  have h := default_lease_spec envNoLease "boot" "claude-ro" (.str "pw")
    (.str "req-1") "tok1" [("client_token", .str "tok1")]
    (by decide) rfl (by decide) (by decide) rfl rfl (by decide) rfl
    (by decide) rfl (by decide)
  have h2 := h.2 rfl 0 sFresh rfl
  exact ⟨h.1, h2.1, h2.2.1⟩

/-- A request may carry the bootstrap token only at the RO-login password
retrieval or at MFA validation. -/
def bootstrapAllowed (bt : String) (r : Request) : Prop :=
  r.token = some bt →
    r.endpoint = .vaultGet "secret/data/claude/ro-login" ∨
    r.endpoint = .mfaValidate

/-- Every request of an `authenticate` call (any outcome) is the RO-login
password read or belongs to a DUO-flow run for `claude-ro`. -/
theorem authenticate_trace_mem (env : Env) (now : Int) (s' : ClientState) :
    ∀ r ∈ (authenticate env now s').2.2,
      r = ⟨.get, .vaultGet "secret/data/claude/ro-login",
            some s'.bootstrapToken, none⟩ ∨
      ∃ pw, r ∈ (userpassDuoFlow env s'.bootstrapToken "claude-ro" pw).2 := by
  simp only [authenticate]
  split
  · rename_i e tr heq
    intro r hr
    have htr := congrArg (fun x : Except VaultError JValue × List Request => x.2) heq
    simp only at htr
    rw [readWithToken_trace] at htr
    rw [← htr] at hr
    simp only [List.mem_singleton] at hr
    exact Or.inl hr
  · rename_i pd tr heq
    have htr := congrArg (fun x : Except VaultError JValue × List Request => x.2) heq
    simp only at htr
    rw [readWithToken_trace] at htr
    split
    · split
      · rename_i e2 tr2 heq2
        intro r hr
        simp only [List.mem_append] at hr
        rcases hr with hr | hr
        · rw [← htr] at hr
          simp only [List.mem_singleton] at hr
          exact Or.inl hr
        · have htr2 := congrArg
            (fun x : Except VaultError (String × Int) × List Request => x.2) heq2
          simp only at htr2
          rw [← htr2] at hr
          exact Or.inr ⟨pd.getD "password" JValue.null, hr⟩
      · rename_i ct lease tr2 heq2
        intro r hr
        simp only [List.mem_append] at hr
        rcases hr with hr | hr
        · rw [← htr] at hr
          simp only [List.mem_singleton] at hr
          exact Or.inl hr
        · have htr2 := congrArg
            (fun x : Except VaultError (String × Int) × List Request => x.2) heq2
          simp only at htr2
          rw [← htr2] at hr
          exact Or.inr ⟨pd.getD "password" JValue.null, hr⟩
    · intro r hr
      rw [← htr] at hr
      simp only [List.mem_singleton] at hr
      exact Or.inl hr

/-- Every request of an `authenticate` call satisfies the bootstrap-usage
discipline. -/
theorem authenticate_trace_allowed (env : Env) (now : Int) (s' : ClientState) :
    ∀ r ∈ (authenticate env now s').2.2, bootstrapAllowed s'.bootstrapToken r := by
  intro r hr
  rcases authenticate_trace_mem env now s' r hr with rfl | ⟨pw, hmem⟩
  · intro _
    exact Or.inl rfl
  · rcases userpassDuoFlow_tokens env s'.bootstrapToken "claude-ro" pw r hmem with
      hnone | ⟨htk, hep⟩
    · intro hc
      rw [hnone] at hc
      exact Option.noConfusion hc
    · intro _
      exact Or.inr hep

/-- The token `_ensure_ro_token` hands back is never the bootstrap token —
it is either the held RO token or a token the backend just minted — and its
trace consists of the RO-login password read and DUO-flow requests. -/
theorem ensureRoToken_token_ne (env : Env) (now : Int) (s : ClientState)
    (hro : s.roToken ≠ some s.bootstrapToken)
    (henv : ∀ r : Request,
      clientTokenOf ((env r).body.getD "auth" (.obj [])) ≠ some s.bootstrapToken)
    (tok : String) (s1 : ClientState) (tr1 : List Request)
    (hE : ensureRoToken env now s = (.ok tok, s1, tr1)) :
    some tok ≠ some s.bootstrapToken ∧
    s1.bootstrapToken = s.bootstrapToken ∧
    ∀ r ∈ tr1,
      r = ⟨.get, .vaultGet "secret/data/claude/ro-login",
            some s.bootstrapToken, none⟩ ∨
      ∃ pw, r ∈ (userpassDuoFlow env s.bootstrapToken "claude-ro" pw).2 := by
  cases hv : (hasValidRoToken now s).1 with
  | true =>
      rw [ensureRoToken_valid env now s hv] at hE
      simp only [Prod.mk.injEq, Except.ok.injEq] at hE
      obtain ⟨h1, h2, h3⟩ := hE
      obtain ⟨t, e, hts, -, -, -⟩ := (hasValidRoToken_valid_iff now s).mp hv
      have htokt : tok = t := by
        rw [← h1, hts]
        rfl
      refine ⟨?_, by rw [← h2], ?_⟩
      · rw [htokt, ← hts]
        exact hro
      · rw [← h3]
        intro r hr
        exact absurd hr (List.not_mem_nil r)
  | false =>
      obtain ⟨m, hauth, htok⟩ := ensureRoToken_invalid_ok env now s hv tok s1 tr1 hE
      obtain ⟨pw, ct, lease, hflow, hs1, htr⟩ := authenticate_ok env now _ m s1 tr1 hauth
      have hbs := (hasValidRoToken_snd now s).2.2
      rw [hbs] at hflow htr
      have htokct : tok = ct := by
        rw [htok, hs1]
        rfl
      refine ⟨?_, by rw [hs1]; exact hbs, ?_⟩
      · obtain ⟨r0, hr0, -⟩ := userpassDuoFlow_ok env _ "claude-ro" pw ct lease hflow
        intro hc
        simp only [Option.some.injEq] at hc
        exact henv r0 (by rw [hr0]; exact congrArg some (htokct ▸ hc))
      · intro r hr
        rw [htr] at hr
        simp only [List.mem_append] at hr
        rcases hr with hr | hr
        · rw [readWithToken_trace] at hr
          simp only [List.mem_singleton] at hr
          exact Or.inl hr
        · exact Or.inr ⟨pw, hr⟩

/-- Requests characterised as password-read-or-flow satisfy the
bootstrap-usage discipline. -/
theorem ensureChar_allowed (env : Env) (s : ClientState) (r : Request)
    (hchar : r = ⟨.get, .vaultGet "secret/data/claude/ro-login",
        some s.bootstrapToken, none⟩ ∨
      ∃ pw, r ∈ (userpassDuoFlow env s.bootstrapToken "claude-ro" pw).2) :
    bootstrapAllowed s.bootstrapToken r := by
  rcases hchar with rfl | ⟨pw, hm⟩
  · intro _
    exact Or.inl rfl
  · rcases userpassDuoFlow_tokens env s.bootstrapToken "claude-ro" pw r hm with
      hnone | ⟨-, hep⟩
    · intro hc
      rw [hnone] at hc
      exact Option.noConfusion hc
    · intro _
      exact Or.inr hep

/-- Bootstrap-usage discipline for `read_secret`. -/
theorem read_trace_allowed (env : Env) (now : Int) (path : String)
    (s : ClientState)
    (hro : s.roToken ≠ some s.bootstrapToken)
    (henv : ∀ r : Request,
      clientTokenOf ((env r).body.getD "auth" (.obj [])) ≠ some s.bootstrapToken) :
    ∀ r ∈ (read_secret env now path s).2.2, bootstrapAllowed s.bootstrapToken r := by
  rcases hE : ensureRoToken env now s with ⟨res, s1, tr1⟩
  cases res with
  | error e =>
      have htrace : (read_secret env now path s).2.2 = tr1 := by
        simp [read_secret, hE]
      rw [htrace]
      cases hv : (hasValidRoToken now s).1 with
      | true =>
          rw [ensureRoToken_valid env now s hv] at hE
          simp only [Prod.mk.injEq] at hE
          exact absurd hE.1 (fun hh => Except.noConfusion hh)
      | false =>
          have hauth := ensureRoToken_invalid_error env now s hv e s1 tr1 hE
          intro r hr
          have hmem : r ∈ (authenticate env now (hasValidRoToken now s).2).2.2 := by
            rw [hauth]
            exact hr
          have hall := authenticate_trace_allowed env now (hasValidRoToken now s).2 r hmem
          rw [(hasValidRoToken_snd now s).2.2] at hall
          exact hall
  | ok tok =>
      obtain ⟨hne, hbs1, hchar⟩ := ensureRoToken_token_ne env now s hro henv tok s1 tr1 hE
      have htrace : (read_secret env now path s).2.2 =
          tr1 ++ [⟨.get, .secretData path, some tok, none⟩] := by
        simp only [read_secret, hE]
        split <;> rfl
      rw [htrace]
      intro r hr
      simp only [List.mem_append, List.mem_singleton] at hr
      rcases hr with hr | rfl
      · exact ensureChar_allowed env s r (hchar r hr)
      · intro hc
        exact absurd hc hne

/-- Bootstrap-usage discipline for `list_secrets`. -/
theorem list_trace_allowed (env : Env) (now : Int) (path : String)
    (s : ClientState)
    (hro : s.roToken ≠ some s.bootstrapToken)
    (henv : ∀ r : Request,
      clientTokenOf ((env r).body.getD "auth" (.obj [])) ≠ some s.bootstrapToken) :
    ∀ r ∈ (list_secrets env now path s).2.2, bootstrapAllowed s.bootstrapToken r := by
  rcases hE : ensureRoToken env now s with ⟨res, s1, tr1⟩
  cases res with
  | error e =>
      have htrace : (list_secrets env now path s).2.2 = tr1 := by
        simp [list_secrets, hE]
      rw [htrace]
      cases hv : (hasValidRoToken now s).1 with
      | true =>
          rw [ensureRoToken_valid env now s hv] at hE
          simp only [Prod.mk.injEq] at hE
          exact absurd hE.1 (fun hh => Except.noConfusion hh)
      | false =>
          have hauth := ensureRoToken_invalid_error env now s hv e s1 tr1 hE
          intro r hr
          have hmem : r ∈ (authenticate env now (hasValidRoToken now s).2).2.2 := by
            rw [hauth]
            exact hr
          have hall := authenticate_trace_allowed env now (hasValidRoToken now s).2 r hmem
          rw [(hasValidRoToken_snd now s).2.2] at hall
          exact hall
  | ok tok =>
      obtain ⟨hne, hbs1, hchar⟩ := ensureRoToken_token_ne env now s hro henv tok s1 tr1 hE
      have htrace : (list_secrets env now path s).2.2 =
          tr1 ++ [⟨.list, .secretMetadata path, some tok, none⟩] := by
        simp only [list_secrets, hE]
        split <;> [rfl; (split <;> rfl)]
      rw [htrace]
      intro r hr
      simp only [List.mem_append, List.mem_singleton] at hr
      rcases hr with hr | rfl
      · exact ensureChar_allowed env s r (hchar r hr)
      · intro hc
        exact absurd hc hne

/-- Bootstrap-usage discipline for `write_secret`. -/
theorem write_trace_allowed (env : Env) (now : Int) (path : String)
    (data : JValue) (s : ClientState)
    (hrw : s.rwToken ≠ some s.bootstrapToken) :
    ∀ r ∈ (write_secret env now path data s).2.2,
      bootstrapAllowed s.bootstrapToken r := by
  cases hb : (hasValidRwToken now s).1 with
  | false =>
      have htrace : (write_secret env now path data s).2.2 = [] := by
        simp [write_secret, hb]
      rw [htrace]
      intro r hr
      exact absurd hr (List.not_mem_nil r)
  | true =>
      have hs1 := hasValidRwToken_of_valid now s hb
      have htrace : (write_secret env now path data s).2.2 =
          [⟨.post, .secretData path, s.rwToken, some (.obj [("data", data)])⟩] := by
        simp only [write_secret, hs1]
        split
        · split <;> rfl
        · rename_i hfalse
          simp at hfalse
      rw [htrace]
      intro r hr
      simp only [List.mem_singleton] at hr
      subst hr
      intro hc
      exact absurd hc hrw

/-- Bootstrap-usage discipline for `deescalate`. -/
theorem deescalate_trace_allowed (env : Env) (now : Int) (s : ClientState)
    (hrw : s.rwToken ≠ some s.bootstrapToken) :
    ∀ r ∈ (deescalate env now s).2.2, bootstrapAllowed s.bootstrapToken r := by
  cases hb : (hasValidRwToken now s).1 with
  | false =>
      have htrace : (deescalate env now s).2.2 = [] := by
        simp [deescalate, hb]
      rw [htrace]
      intro r hr
      exact absurd hr (List.not_mem_nil r)
  | true =>
      have hs1 := hasValidRwToken_of_valid now s hb
      have htrace : (deescalate env now s).2.2 =
          [⟨.post, .revokeSelf, s.rwToken, none⟩] := by
        simp [deescalate, hs1]
      rw [htrace]
      intro r hr
      simp only [List.mem_singleton] at hr
      subst hr
      intro hc
      exact absurd hc hrw

/-- Bootstrap-usage discipline for `escalate`: its RW-login password read is
authorized by the RO token (never the bootstrap token), and only the MFA
validation of its DUO flow carries the bootstrap token. -/
theorem escalate_trace_allowed (env : Env) (now : Int) (s : ClientState)
    (hro : s.roToken ≠ some s.bootstrapToken)
    (henv : ∀ r : Request,
      clientTokenOf ((env r).body.getD "auth" (.obj [])) ≠ some s.bootstrapToken) :
    ∀ r ∈ (escalate env now s).2.2, bootstrapAllowed s.bootstrapToken r := by
  rcases hE : ensureRoToken env now s with ⟨res, s1, tr1⟩
  cases res with
  | error e =>
      have htrace : (escalate env now s).2.2 = tr1 := by
        simp [escalate, hE]
      rw [htrace]
      cases hv : (hasValidRoToken now s).1 with
      | true =>
          rw [ensureRoToken_valid env now s hv] at hE
          simp only [Prod.mk.injEq] at hE
          exact absurd hE.1 (fun hh => Except.noConfusion hh)
      | false =>
          have hauth := ensureRoToken_invalid_error env now s hv e s1 tr1 hE
          intro r hr
          have hmem : r ∈ (authenticate env now (hasValidRoToken now s).2).2.2 := by
            rw [hauth]
            exact hr
          have hall := authenticate_trace_allowed env now (hasValidRoToken now s).2 r hmem
          rw [(hasValidRoToken_snd now s).2.2] at hall
          exact hall
  | ok tok =>
      obtain ⟨hne, hbs1, hchar⟩ := ensureRoToken_token_ne env now s hro henv tok s1 tr1 hE
      simp only [escalate, hE]
      split
      · rename_i e2 tr2 heq2
        have htr2 := congrArg (fun x : Except VaultError JValue × List Request => x.2) heq2
        simp only at htr2
        rw [readWithToken_trace] at htr2
        intro r hr
        simp only [List.mem_append] at hr
        rcases hr with hr | hr
        · exact ensureChar_allowed env s r (hchar r hr)
        · rw [← htr2] at hr
          simp only [List.mem_singleton] at hr
          subst hr
          intro hc
          exact absurd hc hne
      · rename_i pd2 tr2 heq2
        have htr2 := congrArg (fun x : Except VaultError JValue × List Request => x.2) heq2
        simp only at htr2
        rw [readWithToken_trace] at htr2
        split
        · split
          · rename_i e3 tr3 heq3
            have htr3 := congrArg
              (fun x : Except VaultError (String × Int) × List Request => x.2) heq3
            simp only at htr3
            intro r hr
            simp only [List.mem_append] at hr
            rcases hr with (hr | hr) | hr
            · exact ensureChar_allowed env s r (hchar r hr)
            · rw [← htr2] at hr
              simp only [List.mem_singleton] at hr
              subst hr
              intro hc
              exact absurd hc hne
            · rw [← htr3] at hr
              rcases userpassDuoFlow_tokens env s1.bootstrapToken "claude-rw"
                  (pd2.getD "password" JValue.null) r hr with hnone | ⟨-, hep⟩
              · intro hc
                rw [hnone] at hc
                exact Option.noConfusion hc
              · intro _
                exact Or.inr hep
          · rename_i ct3 lease3 tr3 heq3
            have htr3 := congrArg
              (fun x : Except VaultError (String × Int) × List Request => x.2) heq3
            simp only at htr3
            intro r hr
            simp only [List.mem_append] at hr
            rcases hr with (hr | hr) | hr
            · exact ensureChar_allowed env s r (hchar r hr)
            · rw [← htr2] at hr
              simp only [List.mem_singleton] at hr
              subst hr
              intro hc
              exact absurd hc hne
            · rw [← htr3] at hr
              rcases userpassDuoFlow_tokens env s1.bootstrapToken "claude-rw"
                  (pd2.getD "password" JValue.null) r hr with hnone | ⟨-, hep⟩
              · intro hc
                rw [hnone] at hc
                exact Option.noConfusion hc
              · intro _
                exact Or.inr hep
        · intro r hr
          simp only [List.mem_append] at hr
          rcases hr with hr | hr
          · exact ensureChar_allowed env s r (hchar r hr)
          · rw [← htr2] at hr
            simp only [List.mem_singleton] at hr
            subst hr
            intro hc
            exact absurd hc hne

/-- **C3 (counterexample).** Against a cooperative backend, `authenticate`
issues three requests, and the third — the MFA validation — carries the
bootstrap token (`sFresh.bootstrapToken = "boot"`) as its authorization.
The bootstrap token is therefore sent on a backend call other than the
password-retrieval read, refuting the claim as stated. -/
theorem bootstrap_beyond_password_read :
    (authenticate envHappy 0 sFresh).2.2 =
      [⟨.get, .vaultGet "secret/data/claude/ro-login", some "boot", none⟩,
       ⟨.post, .userpassLogin "claude-ro", none,
         some (.obj [("password", .str "pw")])⟩,
       ⟨.post, .mfaValidate, some "boot",
         some (.obj [("mfa_request_id", .str "req-1"),
           ("mfa_payload", .obj [(DUO_METHOD_ID, .arr [])])])⟩] ∧
    sFresh.bootstrapToken = "boot" ∧
    Endpoint.mfaValidate ≠ .vaultGet "secret/data/claude/ro-login" :=
  ⟨rfl, rfl, by decide⟩

/-- **C3 (amended).** Provided the bootstrap token coincides with no held or
backend-minted credential, every request issued by any of the six operations
that carries the bootstrap token as its authorization is either the RO-login
password-retrieval read or an MFA-validation call; in particular no
`read_secret` / `write_secret` / `list_secrets` secret request is ever
authorized by the bootstrap token (`token_status` issues no request at
all). -/
theorem bootstrap_token_usage (env : Env) (now : Int) (path : String)
    (data : JValue) (s : ClientState)
    (hro : s.roToken ≠ some s.bootstrapToken)
    (hrw : s.rwToken ≠ some s.bootstrapToken)
    (henv : ∀ r : Request,
      clientTokenOf ((env r).body.getD "auth" (.obj [])) ≠ some s.bootstrapToken) :
    (∀ r ∈ (authenticate env now s).2.2, bootstrapAllowed s.bootstrapToken r)
    ∧ (∀ r ∈ (read_secret env now path s).2.2, bootstrapAllowed s.bootstrapToken r)
    ∧ (∀ r ∈ (list_secrets env now path s).2.2, bootstrapAllowed s.bootstrapToken r)
    ∧ (∀ r ∈ (write_secret env now path data s).2.2,
        bootstrapAllowed s.bootstrapToken r)
    ∧ (∀ r ∈ (escalate env now s).2.2, bootstrapAllowed s.bootstrapToken r)
    ∧ (∀ r ∈ (deescalate env now s).2.2, bootstrapAllowed s.bootstrapToken r) :=
  ⟨authenticate_trace_allowed env now s,
   read_trace_allowed env now path s hro henv,
   list_trace_allowed env now path s hro henv,
   write_trace_allowed env now path data s hrw,
   escalate_trace_allowed env now s hro henv,
   deescalate_trace_allowed env now s hrw⟩

/-- The only credential `envHappy` ever mints is `"tok1"`. -/
theorem envHappy_tokens (r : Request) :
    clientTokenOf ((envHappy r).body.getD "auth" (.obj [])) = none ∨
    clientTokenOf ((envHappy r).body.getD "auth" (.obj [])) = some "tok1" := by
  rcases r with ⟨m, ep, tk, bd⟩
  cases ep with
  | vaultGet p => exact Or.inl rfl
  | secretData p => exact Or.inl rfl
  | secretMetadata p => exact Or.inl rfl
  | userpassLogin u => exact Or.inl rfl
  | mfaValidate => exact Or.inr rfl
  | revokeSelf => exact Or.inl rfl

theorem bootstrap_token_usage_witness :
    Endpoint.mfaValidate = .vaultGet "secret/data/claude/ro-login" ∨
    Endpoint.mfaValidate = Endpoint.mfaValidate := by
  have h := (bootstrap_token_usage envHappy 0 "p" (.obj []) sFresh
      (by decide) (by decide)
      (by intro r; rcases envHappy_tokens r with h | h <;> rw [h] <;> decide)).1
    ⟨.post, .mfaValidate, some "boot",
      some (.obj [("mfa_request_id", .str "req-1"),
        ("mfa_payload", .obj [(DUO_METHOD_ID, .arr [])])])⟩
    (List.mem_cons_of_mem _ (List.mem_cons_of_mem _ (List.mem_cons_self _ _)))
    rfl
  exact h

/-- **C2 (code bug).** With both a valid RO token `"ro"` and a valid RW token
`"rw"` held, `read_secret` sends the RO token on its GET; the `best_token`
selector — which does return the held RW token, per the RW > RO > none
precedence — is never consulted by `read_secret` (it is dead code in the
source), contradicting `tools.py`'s documented behavior "Uses the RW token
if held, otherwise RO". -/
theorem read_ignores_held_rw_token :
    (best_token 0 sBothValid).1 = some "rw" ∧
    (read_secret envHappy 0 "p" sBothValid).2.2 =
      [⟨.get, .secretData "p", some "ro", none⟩] :=
  ⟨rfl, rfl⟩
